import Mathlib

/-!
Verification development for the `console` package (two Python modules,
`printer.py` and `console.py`).

Strings are modelled as `List Char`.  The process-wide configuration read by
the renderer — the `ANSI_COLORS_DISABLED` environment variable and the
module-level `fancy_text` flag — is passed explicitly as two booleans
`ansiColorsDisabled` and `fancyText`.  Python exceptions are modelled with
`Except PyErr`.  Numeric progress values are modelled with exact rationals;
wall-clock readings (`time.time()`) are passed in as explicit inputs.
-/

inductive PyErr where
  | valueError
  | zeroDivisionError
  | keyError
  | typeError
deriving DecidableEq

/-- `RESET = '\033[0m'` from printer.py. -/
def RESET : List Char := "\x1b[0m".toList

/-- The format string `'\033[%dm%s'` applied to a code and a text
(`fmt_str % (code, text)` in `colored`). -/
def escCode (n : Nat) (text : List Char) : List Char :=
  '\x1b' :: '[' :: (Nat.repr n).toList ++ 'm' :: text

/-- Association-list lookup, modelling Python dict access / membership. -/
def lookupA (d : List (List Char × Nat)) (key : List Char) : Option Nat :=
  match d with
  | [] => none
  | (k, v) :: rest => if key = k then some v else lookupA rest key

/-- The `ATTRIBUTES` dict of printer.py: bold..concealed mapped into 1..8
with the empty slots (3 and 6) deleted. -/
def ATTRIBUTES : List (List Char × Nat) :=
  [("bold".toList, 1), ("dark".toList, 2), ("underline".toList, 4),
   ("blink".toList, 5), ("reverse".toList, 7), ("concealed".toList, 8)]

/-- The `HIGHLIGHTS` dict of printer.py: on_grey..on_white mapped to 40..47. -/
def HIGHLIGHTS : List (List Char × Nat) :=
  [("on_grey".toList, 40), ("on_red".toList, 41), ("on_green".toList, 42),
   ("on_yellow".toList, 43), ("on_blue".toList, 44), ("on_magenta".toList, 45),
   ("on_cyan".toList, 46), ("on_white".toList, 47)]

/-- The `COLORS` dict of printer.py: grey..white mapped to 30..37. -/
def COLORS : List (List Char × Nat) :=
  [("grey".toList, 30), ("red".toList, 31), ("green".toList, 32),
   ("yellow".toList, 33), ("blue".toList, 34), ("magenta".toList, 35),
   ("cyan".toList, 36), ("white".toList, 37)]

/-- Python dict subscription `d[k]`: a missing key raises `KeyError`. -/
def dictGet (d : List (List Char × Nat)) (key : List Char) : Except PyErr Nat :=
  match lookupA d key with
  | some v => Except.ok v
  | none => Except.error PyErr.keyError

/-- `colored(text, color=None, on_color=None, attrs=None)` from printer.py.

If all three style arguments are `None` the text is returned unchanged.
Otherwise, when the `ANSI_COLORS_DISABLED` environment variable is unset and
the module flag `fancy_text` is true, each requested code is prepended as an
escape prefix (color, then highlight, then the attributes in order) and a
single `RESET` is appended; otherwise the text is returned unchanged. -/
def colored (text : List Char) (color on_color : Option (List Char))
    (attrs : Option (List (List Char)))
    (ansiColorsDisabled fancyText : Bool) : Except PyErr (List Char) :=
  if color = none ∧ on_color = none ∧ attrs = none then Except.ok text
  else if ansiColorsDisabled = false ∧ fancyText = true then do
    let t1 ← match color with
      | none => pure text
      | some c => do
        let n ← dictGet COLORS c
        pure (escCode n text)
    let t2 ← match on_color with
      | none => pure t1
      | some c => do
        let n ← dictGet HIGHLIGHTS c
        pure (escCode n t1)
    let t3 ← match attrs with
      | none => pure t2
      | some l => l.foldlM (fun t attr => do
          let n ← dictGet ATTRIBUTES attr
          pure (escCode n t)) t2
    pure (t3 ++ RESET)
  else Except.ok text

/-- One iteration of the directive-classification loop of `_render` in
printer.py: later color/highlight arguments overwrite earlier ones,
attribute arguments are gathered into a list skipping duplicates, anything
else is skipped. -/
def classifyStep
    (acc : Option (List Char) × Option (List Char) × List (List Char))
    (arg : List Char) :
    Option (List Char) × Option (List Char) × List (List Char) :=
  if (lookupA COLORS arg).isSome then (some arg, acc.2.1, acc.2.2)
  else if (lookupA HIGHLIGHTS arg).isSome then (acc.1, some arg, acc.2.2)
  else if (lookupA ATTRIBUTES arg).isSome && !(acc.2.2.contains arg) then
    (acc.1, acc.2.1, acc.2.2 ++ [arg])
  else acc

/-- The directive-classification loop of `_render`, starting from no color,
no highlight and an empty attribute list. -/
def classify (args : List (List Char)) :
    Option (List Char) × Option (List Char) × List (List Char) :=
  args.foldl classifyStep (none, none, [])

/-- `_render(text, *args)` from printer.py: classify the directive arguments,
then return `(colored(text, color, highlight, attributes), text)`.  Note the
attribute list is always passed (it is a Python list, never `None`). -/
def _render (text : List Char) (args : List (List Char))
    (ansiColorsDisabled fancyText : Bool) :
    Except PyErr (List Char × List Char) :=
  match classify args with
  | (color, highlight, attributes) =>
    match colored text color highlight (some attributes)
        ansiColorsDisabled fancyText with
    | Except.error e => Except.error e
    | Except.ok r => Except.ok (r, text)

/-- A directive token recognized by one of the three dicts. -/
def isDirective (arg : List Char) : Bool :=
  (lookupA COLORS arg).isSome || (lookupA HIGHLIGHTS arg).isSome ||
    (lookupA ATTRIBUTES arg).isSome

-- ### The regular-expression scanner of `parse`
--
-- `parse` matches the pattern  lead + r'(?:\.+?\)+'  (one lead character
-- followed by one or more brace groups; the body of a group is a lazy `.+?`,
-- so it is the shortest nonempty, newline-free run ending before a closing
-- brace), with non-overlapping leftmost matches, exactly as `re.findall`
-- computes them.

/-- Scan for the first closing brace, as the lazy `.+?` does after its first
mandatory character; `.` does not match a newline. -/
def findClose : List Char → Option (List Char × List Char)
  | [] => none
  | c :: rest =>
    if c = '}' then some ([], rest)
    else if c = '\n' then none
    else (findClose rest).map (fun p => (c :: p.1, p.2))

/-- Match one brace group at the head of the input; returns the group body
(the capture of `.+?`, at least one character) and the remaining input. -/
def matchGroup : List Char → Option (List Char × List Char)
  | '{' :: c :: rest =>
    if c = '\n' then none
    else (findClose rest).map (fun p => (c :: p.1, p.2))
  | _ => none

/-- Greedily match further brace groups (the `+` quantifier); returns the
matched text (braces included) and the remaining input.  The fuel argument
bounds the recursion; each group consumes at least three characters, so fuel
equal to the input length is always sufficient. -/
def matchGroupsAux : Nat → List Char → List Char × List Char
  | 0, s => ([], s)
  | fuel + 1, s =>
    match matchGroup s with
    | none => ([], s)
    | some (body, rest) =>
      let p := matchGroupsAux fuel rest
      ('{' :: body ++ '}' :: p.1, p.2)

/-- Match one or more brace groups at the head of the input. -/
def matchGroups1 (s : List Char) : Option (List Char × List Char) :=
  match matchGroup s with
  | none => none
  | some (body, rest) =>
    let p := matchGroupsAux s.length rest
    some ('{' :: body ++ '}' :: p.1, p.2)

/-- `re.findall(lead + r'(?:\.+?\)+', text)`: the units to be colored.
Each unit is returned as the full matched text (lead character included). -/
def findUnitsAux (lead : Char) : Nat → List Char → List (List Char)
  | 0, _ => []
  | _ + 1, [] => []
  | fuel + 1, c :: rest =>
    if c = lead then
      match matchGroups1 rest with
      | some (grp, rest') => (c :: grp) :: findUnitsAux lead fuel rest'
      | none => findUnitsAux lead fuel rest
    else findUnitsAux lead fuel rest

def findUnits (lead : Char) (s : List Char) : List (List Char) :=
  findUnitsAux lead s.length s

/-- `re.findall(r'\(.+?\)', unit)`: the bodies of all brace groups in a
unit, scanned left to right without overlap. -/
def findBraceArgsAux : Nat → List Char → List (List Char)
  | 0, _ => []
  | _ + 1, [] => []
  | fuel + 1, s =>
    match matchGroup s with
    | some (body, rest) => body :: findBraceArgsAux fuel rest
    | none => findBraceArgsAux fuel s.tail

def findBraceArgs (s : List Char) : List (List Char) :=
  findBraceArgsAux s.length s

/-- Python `str.replace`: replace every non-overlapping occurrence of `pat`,
scanning left to right.  The unit patterns used by `parse` always start with
the lead character, so the empty-pattern case is unreachable; it returns the
input unchanged. -/
def replaceAllAux (pat repl : List Char) : Nat → List Char → List Char
  | 0, s => s
  | _ + 1, [] => []
  | fuel + 1, c :: rest =>
    if pat.isPrefixOf (c :: rest) then
      repl ++ replaceAllAux pat repl fuel ((c :: rest).drop pat.length)
    else c :: replaceAllAux pat repl fuel rest

def replaceAll (pat repl s : List Char) : List Char :=
  if pat = [] then s else replaceAllAux pat repl s.length s

/-- The rendering loop of `parse`: for each matched unit, split it into its
brace-group bodies (payload first, then directive tokens), render, and
substitute the rendered and raw forms into the two output buffers by direct
text substitution.  An empty argument list would make the Python call
`_render(*args)` fail with a `TypeError`; it cannot arise for a matched
unit. -/
def renderUnits (ansiColorsDisabled fancyText : Bool) :
    List (List Char) → List Char × List Char →
    Except PyErr (List Char × List Char)
  | [], acc => Except.ok acc
  | unit :: rest, acc =>
    match findBraceArgs unit with
    | [] => Except.error PyErr.typeError
    | payload :: dirs =>
      match _render payload dirs ansiColorsDisabled fancyText with
      | Except.error e => Except.error e
      | Except.ok (ren, raw) =>
        renderUnits ansiColorsDisabled fancyText rest
          (replaceAll unit ren acc.1, replaceAll unit raw acc.2)

/-- `parse(text, lead='#')` from printer.py: find all units, render each and
substitute, and finally force the rendered text to equal the raw text when
the `fancy_text` flag is false.  Returns `(rendered_text, raw_text)`. -/
def parse (text : List Char) (lead : Char)
    (ansiColorsDisabled fancyText : Bool) :
    Except PyErr (List Char × List Char) :=
  match renderUnits ansiColorsDisabled fancyText (findUnits lead text)
      (text, text) with
  | Except.error e => Except.error e
  | Except.ok (ren, raw) =>
    Except.ok (if fancyText then (ren, raw) else (raw, raw))

/-- The raw component of `parse` (the value `write_line` returns and
buffers).  `parse` only fails on inputs that are unreachable from the
operations verified here; the default is irrelevant and never used in any
theorem below (all of them carry a success hypothesis). -/
def rawOf (ansiColorsDisabled fancyText : Bool) (text : List Char) :
    List Char :=
  match parse text '#' ansiColorsDisabled fancyText with
  | Except.ok p => p.2
  | Except.error _ => []

-- ### The progress bar (`print_progress` in printer.py)

/-- The completion-fraction computation at the top of
`printer.print_progress`: use `progress` when provided, else require both
`index` and `total` (raising `ValueError` otherwise) and divide; the result
is clamped with `min(progress, 1.0)`.  Python raises `ZeroDivisionError`
for `total == 0`. -/
def progressFraction (index total progress : Option ℚ) : Except PyErr ℚ :=
  match progress with
  | none =>
    match index, total with
    | some i, some t =>
      if t = 0 then Except.error PyErr.zeroDivisionError
      else Except.ok (min (1 * i / t) 1)
    | _, _ => Except.error PyErr.valueError
  | some p => Except.ok (min p 1)

/-- Integer truncation toward zero, as Python `int()` applied to a
nonnegative or negative value. -/
def pyInt (q : ℚ) : ℤ := Int.tdiv q.num q.den

/-- Python string repetition `c * n` for a possibly negative count. -/
def replI (c : Char) (n : ℤ) : List Char := List.replicate n.toNat c

/-- Python formatting with a `.0f` spec, modelled at exact rationals by
rounding half to even (Python rounds the binary float half to even; no
verified claim inspects this text). -/
def formatF0 (q : ℚ) : List Char :=
  let n : ℤ := ⌊q⌋
  let r : ℚ := q - n
  let m : ℤ :=
    if r < 1 / 2 then n
    else if 1 / 2 < r then n + 1
    else if 2 ∣ n then n else n + 1
  (Int.repr m).toList

/-- `clear_line(text_width=79)` from printer.py: carriage return, spaces,
carriage return. -/
def clearChunk (textWidth : Nat) : List Char :=
  '\r' :: List.replicate textWidth ' ' ++ ['\r']

/-- The tail to the right of the bar: an ETA string when a start time is
active, else a percentage. `now` is the current `time.time()` reading. -/
def progressTail (startTime : Option ℚ) (now frac : ℚ) : List Char :=
  match startTime with
  | some t0 =>
    let duration := now - t0
    let eta := duration / max frac (1 / 10000000) * (1 - frac)
    "ETA: ".toList ++ formatF0 eta ++ ['s']
  | none => formatF0 (100 * frac) ++ ['%']

/-- The bar text `'[%s%s%s] %s' % ('='*left, mid, ' '*right, tail)`. -/
def progressBarLine (frac : ℚ) (barWidth : Nat) (tail : List Char) :
    List Char :=
  let left : ℤ := pyInt (frac * barWidth)
  let right : ℤ := barWidth - left
  let mid : Char := if frac = 1 then '=' else '>'
  '[' :: (replI '=' left ++ mid :: replI ' ' right) ++ ']' :: ' ' :: tail

/-- `printer.print_progress`: compute the fraction (possibly raising), then
emit the clear-line sequence followed by the bar as two stdout writes. -/
def print_progress (index total startTime progress : Option ℚ)
    (barWidth : Nat) (now : ℚ) : Except PyErr (List (List Char)) :=
  match progressFraction index total progress with
  | Except.error e => Except.error e
  | Except.ok frac =>
    Except.ok [clearChunk 79,
      progressBarLine frac barWidth (progressTail startTime now frac)]

-- ### The Console session (console.py)

/-- The `_last_func_called` field.  The source stores a function reference
and `auto_clear` compares it with `self.print_progress`; only the
print-progress case can compare equal, so the reference is modelled as an
enumeration of the functions that are ever stored. -/
inductive LastOp where
  | noneF
  | writeLineF
  | showStatusF
  | progressF
deriving DecidableEq

structure Console where
  bufferSize : Nat
  buffer : List (List Char)
  lastOp : LastOp
  tic : Option ℚ
  title : Option (List Char)
deriving DecidableEq

/-- `Console.TEXT_WIDTH`. -/
def TEXT_WIDTH : Nat := 79

/-- `Console.__init__(buffer_size, fancy_text)`: the per-instance fields.
(The side effect on the process-wide flag when `fancy_text=False` is
modelled by `stepFancy` below.) -/
def mkConsole (bufferSize : Nat) : Console :=
  { bufferSize := bufferSize, buffer := [], lastOp := LastOp.noneF,
    tic := none, title := none }

/-- `Console._add_to_buffer`: no-op when the size is zero, else append and
pop the oldest entry once the size is exceeded. -/
def addToBuffer (size : Nat) (buf : List (List Char)) (line : List Char) :
    List (List Char) :=
  if size = 0 then buf
  else if size < (buf ++ [line]).length then (buf ++ [line]).drop 1
  else buf ++ [line]

/-- The output prefix produced by the `auto_clear` decorator: a clear-line
sequence when the previous call was `print_progress`, nothing otherwise. -/
def autoClearPre (st : Console) : List (List Char) :=
  if st.lastOp = LastOp.progressF then [clearChunk TEXT_WIDTH] else []

/-- `Console.write_line` together with its `auto_clear` wrapper.  The
wrapper first emits a clear-line when the previous call was
`print_progress` and records this function as the last one called; the body
parses, prints `colored(ren, color, highlight, attributes)` with a trailing
newline, optionally buffers the raw text, and returns the raw text.
The result is `(returned value or exception, new state, stdout chunks)`;
on an exception the state mutations made before the raise persist. -/
def writeLine (ansiColorsDisabled fancyText : Bool) (st : Console)
    (text : List Char) (color highlight : Option (List Char))
    (attributes : Option (List (List Char))) (buffer : Bool) :
    Except PyErr (List Char) × Console × List (List Char) :=
  match parse text '#' ansiColorsDisabled fancyText with
  | Except.error e =>
    (Except.error e, { st with lastOp := LastOp.writeLineF }, autoClearPre st)
  | Except.ok (ren, raw) =>
    match colored ren color highlight attributes ansiColorsDisabled fancyText with
    | Except.error e =>
      (Except.error e, { st with lastOp := LastOp.writeLineF }, autoClearPre st)
    | Except.ok styled =>
      (Except.ok raw,
       if buffer then
         { st with lastOp := LastOp.writeLineF,
                   buffer := addToBuffer st.bufferSize st.buffer raw }
       else { st with lastOp := LastOp.writeLineF },
       autoClearPre st ++ [styled ++ ['\n']])

/-- `Console.write`: parse and write without newline; not wrapped by
`auto_clear`, does not buffer, does not update `_last_func_called`. -/
def Console.write (ansiColorsDisabled fancyText : Bool) (st : Console)
    (text : List Char) (color highlight : Option (List Char))
    (attributes : Option (List (List Char))) :
    Except PyErr Unit × Console × List (List Char) :=
  match parse text '#' ansiColorsDisabled fancyText with
  | Except.error e => (Except.error e, st, [])
  | Except.ok (ren, _) =>
    match colored ren color highlight attributes ansiColorsDisabled fancyText with
    | Except.error e => (Except.error e, st, [])
    | Except.ok styled => (Except.ok (), st, [styled])

/-- `Console.show_status` together with its `auto_clear` wrapper: format
`prompt + space + text` (default prompt `>>`) and forward to `write_line`
(whose own wrapper then sees `show_status` as the last call). -/
def showStatus (ansiColorsDisabled fancyText : Bool) (st : Console)
    (text : List Char) (color highlight : Option (List Char))
    (attributes : Option (List (List Char))) (prompt : Option (List Char))
    (buffer : Bool) :
    Except PyErr (List Char) × Console × List (List Char) :=
  let r := writeLine ansiColorsDisabled fancyText
    { st with lastOp := LastOp.showStatusF }
    ((prompt.getD ">>".toList) ++ ' ' :: text) color highlight attributes buffer
  (r.1, r.2.1, autoClearPre st ++ r.2.2)

/-- `text_width = text_width or self.TEXT_WIDTH` (note `0` is falsy). -/
def splitWidth (textWidth : Option Nat) : Nat :=
  match textWidth with
  | none => TEXT_WIDTH
  | some x => if x = 0 then TEXT_WIDTH else x

/-- `Console.split`: parse the splitter, compute the repeat count from the
raw length (`int(text_width / len(raw))`, raising `ZeroDivisionError` for an
empty raw splitter), and emit that many repetitions of the rendered splitter
through one `write_line` call. -/
def Console.split (ansiColorsDisabled fancyText : Bool) (st : Console)
    (splitter : List Char) (textWidth : Option Nat)
    (color highlight : Option (List Char))
    (attributes : Option (List (List Char))) :
    Except PyErr (List Char) × Console × List (List Char) :=
  let w : Nat := splitWidth textWidth
  match parse splitter '#' ansiColorsDisabled fancyText with
  | Except.error e => (Except.error e, st, [])
  | Except.ok (ren, raw) =>
    if raw.length = 0 then (Except.error PyErr.zeroDivisionError, st, [])
    else
      writeLine ansiColorsDisabled fancyText st
        (List.flatten (List.replicate (w / raw.length) ren))
        color highlight attributes true

/-- `Console.print_progress`: reset the timer when `index == 0`, forward to
`printer.print_progress`, and record `print_progress` as the last call
(only after the printer call returned without raising). -/
def ticAfter (st : Console) (index : Option ℚ) (now : ℚ) : Console :=
  if index = some 0 then { st with tic := some now } else st

def Console.printProgress (st : Console)
    (index total progress : Option ℚ) (now : ℚ) :
    Except PyErr Unit × Console × List (List Char) :=
  match print_progress index total (ticAfter st index now).tic progress 65 now with
  | Except.error e => (Except.error e, ticAfter st index now, [])
  | Except.ok chunks =>
    (Except.ok (), { ticAfter st index now with lastOp := LastOp.progressF },
     chunks)

/-- A `write_line` call record: the text and the three direct style
arguments (`buffer=True`). -/
structure WriteCall where
  text : List Char
  color : Option (List Char)
  highlight : Option (List Char)
  attributes : Option (List (List Char))

/-- Run a sequence of buffered `write_line` calls; an exception aborts the
rest of the sequence, as in Python. -/
def runWriteLines (ansiColorsDisabled fancyText : Bool) :
    Console → List WriteCall →
    Except PyErr Unit × Console × List (List Char)
  | st, [] => (Except.ok (), st, [])
  | st, c :: cs =>
    match writeLine ansiColorsDisabled fancyText st c.text c.color
        c.highlight c.attributes true with
    | (Except.error e, st1, out) => (Except.error e, st1, out)
    | (Except.ok _, st1, out) =>
      match runWriteLines ansiColorsDisabled fancyText st1 cs with
      | (res, st2, out2) => (res, st2, out ++ out2)

-- ### The process-wide fancy-text flag

/-- The public operations of the package, for tracking their effect on the
module-level `printer.fancy_text` flag. -/
inductive ConsoleOp where
  | initConsole (bufferSize : Nat) (fancyArg : Bool)
  | writeLineOp (text : List Char)
  | writeOp (text : List Char)
  | splitOp (splitter : List Char)
  | showStatusOp (text : List Char)
  | showInfoOp (text : List Char)
  | supplementOp (text : List Char) (level : Nat)
  | warningOp (text : List Char)
  | startOp
  | endOp
  | sectionOp (title : List Char)
  | printProgressOp
  | clearLineOp
  | fancifyOp
  | disableFancyTextOp
  | disableFutureWarningsOp
  | disableLoggingOp (pkg : List Char)

/-- Effect of each operation on `printer.fancy_text`: `Console.__init__`
calls `disable_fancy_text()` when its `fancy_text` argument is false,
`disable_fancy_text` assigns `False`, and no operation ever assigns
`True` (the source exposes no enable path). -/
def stepFancy (g : Bool) : ConsoleOp → Bool
  | ConsoleOp.initConsole _ fancyArg => if fancyArg then g else false
  | ConsoleOp.disableFancyTextOp => false
  | _ => g

-- ### Helper lemmas

/-- Inversion for a successful `write_line` call. -/
lemma writeLine_ok {a f : Bool} {st : Console} {text : List Char}
    {c hl : Option (List Char)} {att : Option (List (List Char))} {b : Bool}
    {r : List Char} {st' : Console} {out : List (List Char)}
    (hw : writeLine a f st text c hl att b = (Except.ok r, st', out)) :
    ∃ ren styled,
      parse text '#' a f = Except.ok (ren, r) ∧
      colored ren c hl att a f = Except.ok styled ∧
      st' = (if b then
               { st with lastOp := LastOp.writeLineF,
                         buffer := addToBuffer st.bufferSize st.buffer r }
             else { st with lastOp := LastOp.writeLineF }) ∧
      out = autoClearPre st ++ [styled ++ ['\n']] := by
  unfold writeLine at hw
  cases hp : parse text '#' a f with
  | error e =>
    rw [hp] at hw
    simp at hw
  | ok p =>
    obtain ⟨ren, raw⟩ := p
    rw [hp] at hw
    dsimp only at hw
    cases hc : colored ren c hl att a f with
    | error e =>
      rw [hc] at hw
      simp at hw
    | ok styled =>
      rw [hc] at hw
      simp only [Prod.mk.injEq, Except.ok.injEq] at hw
      obtain ⟨hr, hst, hout⟩ := hw
      subst hr
      refine ⟨ren, styled, rfl, hc, ?_, hout.symm⟩
      rw [← hst]

/-- The fold of `_add_to_buffer` over a line sequence keeps exactly the most
recent `min (length, k)` lines. -/
lemma addToBuffer_foldl (k : Nat) (ls : List (List Char)) :
    ls.foldl (addToBuffer k) [] = ls.drop (ls.length - k) := by
  induction ls using List.reverseRecOn with
  | nil => simp
  | append_singleton l x ih =>
    rw [List.foldl_append, List.foldl_cons, List.foldl_nil, ih]
    simp only [List.length_append, List.length_singleton]
    by_cases hk : k = 0
    · subst hk
      simp [addToBuffer]
    · unfold addToBuffer
      rw [if_neg hk]
      by_cases hlen : k ≤ l.length
      · have hdlen : (List.drop (l.length - k) l).length = k := by
          rw [List.length_drop]; omega
        rw [if_pos (by rw [List.length_append, hdlen]; simp)]
        rw [List.drop_append_of_le_length
          (by omega : 1 ≤ (List.drop (l.length - k) l).length)]
        rw [List.drop_drop]
        rw [List.drop_append_of_le_length
          (by omega : l.length + 1 - k ≤ l.length)]
        have h3 : l.length - k + 1 = l.length + 1 - k := by omega
        rw [h3]
      · have hd0 : l.length - k = 0 := by omega
        have hd1 : l.length + 1 - k = 0 := by omega
        rw [hd0, hd1, List.drop_zero, List.drop_zero]
        rw [if_neg (by rw [List.length_append]; simp; omega)]

/-- A successful run of buffered `write_line` calls folds the raw lines into
the buffer with `_add_to_buffer` and preserves the buffer size. -/
lemma runWriteLines_buffer {a f : Bool} (cs : List WriteCall) :
    ∀ st st' out, runWriteLines a f st cs = (Except.ok (), st', out) →
      st'.bufferSize = st.bufferSize ∧
      st'.buffer = (cs.map (fun c => rawOf a f c.text)).foldl
        (addToBuffer st.bufferSize) st.buffer := by
  induction cs with
  | nil =>
    intro st st' out h
    simp only [runWriteLines] at h
    simp only [Prod.mk.injEq] at h
    obtain ⟨-, hst, -⟩ := h
    subst hst
    simp
  | cons c cs ih =>
    intro st st' out h
    simp only [runWriteLines] at h
    split at h
    · simp at h
    next x r st1 out1 hw =>
      rcases hr : runWriteLines a f st1 cs with ⟨res2, st2, out2⟩
      rw [hr] at h
      simp only [Prod.mk.injEq] at h
      obtain ⟨hres, hst, -⟩ := h
      subst hres
      subst hst
      obtain ⟨ren, styled, hp, -, hst1, -⟩ := writeLine_ok hw
      have hraw : rawOf a f c.text = r := by
        unfold rawOf
        rw [hp]
      obtain ⟨ih1, ih2⟩ := ih _ _ _ hr
      have hsize : st1.bufferSize = st.bufferSize := by
        rw [hst1]; simp
      have hbuf : st1.buffer = addToBuffer st.bufferSize st.buffer r := by
        rw [hst1]; simp
      constructor
      · rw [ih1, hsize]
      · rw [ih2, hsize, hbuf, List.map_cons, List.foldl_cons, hraw]

/-- With no markup match, the rendering loop is the identity and `parse`
returns the original text in both components. -/
lemma parse_no_units {text : List Char} {lead : Char} {a f : Bool}
    (h : findUnits lead text = []) :
    parse text lead a f = Except.ok (text, text) := by
  unfold parse
  rw [h]
  simp only [renderUnits]
  cases f <;> simp

/-- With the fancy-text flag false, `colored` returns its text unchanged
for every combination of style arguments: the all-`None` call
short-circuits, and any other call skips the escape branch because the
`fancy_text` conjunct of its guard is false. -/
lemma colored_plain (text : List Char) (c hl : Option (List Char))
    (att : Option (List (List Char))) (a : Bool) :
    colored text c hl att a false = Except.ok text := by
  unfold colored
  split
  · rfl
  · rw [if_neg (by simp)]

/-- With the fancy-text flag false, any successful `parse` returns equal
components (the rendered buffer is discarded in favor of the raw one). -/
lemma parse_plain {text : List Char} {lead : Char} {a : Bool}
    {p : List Char × List Char}
    (h : parse text lead a false = Except.ok p) : p.1 = p.2 := by
  unfold parse at h
  split at h
  · simp at h
  next ren raw heq =>
    simp only [Bool.false_eq_true, if_false, Except.ok.injEq] at h
    rw [← h]

/-- A token recognized by none of the three dicts leaves the classification
state unchanged. -/
lemma classify_step_skip
    {acc : Option (List Char) × Option (List Char) × List (List Char)}
    {arg : List Char} (h : isDirective arg = false) :
    classifyStep acc arg = acc := by
  unfold isDirective at h
  simp only [Bool.or_eq_false_iff] at h
  obtain ⟨⟨h1, h2⟩, h3⟩ := h
  unfold classifyStep
  rw [h1, h2, h3]
  simp

/-- Filtering out unrecognized tokens does not change the classification. -/
lemma classify_filter (dirs : List (List Char)) :
    ∀ acc, dirs.foldl classifyStep acc =
      (dirs.filter isDirective).foldl classifyStep acc := by
  induction dirs with
  | nil => intro acc; rfl
  | cons d ds ih =>
    intro acc
    by_cases hd : isDirective d
    · rw [List.filter_cons_of_pos hd, List.foldl_cons, List.foldl_cons, ih]
    · rw [List.filter_cons_of_neg (by simpa using hd), List.foldl_cons,
        classify_step_skip (by simpa using hd), ih]

/-- `disable_fancy_text` is one-way: no operation restores the flag. -/
lemma stepFancy_false (op : ConsoleOp) : stepFancy false op = false := by
  cases op <;> simp [stepFancy]

/-- Every `write_line` output starts with the `auto_clear` prefix, whether
the body succeeds or raises. -/
lemma writeLine_pre (a f : Bool) (st : Console) (text : List Char)
    (c hl : Option (List Char)) (att : Option (List (List Char))) (b : Bool) :
    ∃ rest, (writeLine a f st text c hl att b).2.2 = autoClearPre st ++ rest := by
  unfold writeLine
  cases parse text '#' a f with
  | error e => exact ⟨[], by simp⟩
  | ok p =>
    obtain ⟨ren, raw⟩ := p
    dsimp only
    cases colored ren c hl att a f with
    | error e => exact ⟨[], by simp⟩
    | ok styled => exact ⟨[styled ++ ['\n']], rfl⟩

-- The docstring example of `parse` holds in the embedding.
example :
    parse "#\x7bHello\x7d\x7bred\x7d, #\x7bWorld\x7d\x7bgreen\x7d!".toList
      '#' false true =
    Except.ok ("\x1b[31mHello\x1b[0m, \x1b[32mWorld\x1b[0m!".toList,
               "Hello, World!".toList) := rfl

-- ### Claims

/-- C9: for every text in which the lead-plus-brace-groups pattern has zero
matches, `parse` returns the pair `(text, text)` unchanged and never raises;
absence of markup is never an error. -/
theorem parse_no_markup_roundtrip (text : List Char) (lead : Char)
    (a f : Bool) (h : findUnits lead text = []) :
    parse text lead a f = Except.ok (text, text) :=
  parse_no_units h

theorem parse_no_markup_roundtrip_witness :
    findUnits '#' "plain text".toList = [] ∧
    parse "plain text".toList '#' false true =
      Except.ok ("plain text".toList, "plain text".toList) :=
  ⟨rfl, parse_no_markup_roundtrip _ '#' false true rfl⟩

/-- C8: when the process-wide fancy-text flag is false, the decorated
component returned by `parse` equals the raw component, for every input. -/
theorem parse_plain_mode_idempotent (text : List Char) (lead : Char)
    (a : Bool) (p : List Char × List Char)
    (h : parse text lead a false = Except.ok p) : p.1 = p.2 :=
  parse_plain h

theorem parse_plain_mode_idempotent_witness :
    parse "#\x7bhi\x7d\x7bred\x7d".toList '#' false false =
      Except.ok ("hi".toList, "hi".toList) ∧
    (("hi".toList, "hi".toList) : List Char × List Char).1 =
      (("hi".toList, "hi".toList) : List Char × List Char).2 :=
  ⟨rfl, parse_plain_mode_idempotent "#\x7bhi\x7d\x7bred\x7d".toList '#' false
    ("hi".toList, "hi".toList) rfl⟩

/-- C2: after any sequence of N buffered `write_line` calls on a session
constructed with buffer size k, the buffer holds exactly `min N k` entries,
equal to the most recent `min N k` raw lines in insertion order (for k = 0
the drop leaves the buffer empty regardless of N). -/
theorem write_line_buffer_invariant (a f : Bool) (k : Nat)
    (calls : List WriteCall) (st : Console) (out : List (List Char))
    (h : runWriteLines a f (mkConsole k) calls = (Except.ok (), st, out)) :
    st.buffer =
      (calls.map (fun c => rawOf a f c.text)).drop (calls.length - k) ∧
    st.buffer.length = min calls.length k := by
  obtain ⟨h1, h2⟩ := runWriteLines_buffer calls _ _ _ h
  have hb : st.buffer =
      (calls.map (fun c => rawOf a f c.text)).foldl (addToBuffer k) [] := by
    simpa [mkConsole] using h2
  rw [hb, addToBuffer_foldl]
  refine ⟨by rw [List.length_map], ?_⟩
  rw [List.length_drop, List.length_map]
  omega

theorem write_line_buffer_invariant_witness :
    runWriteLines false true (mkConsole 2)
      [⟨"a".toList, none, none, none⟩, ⟨"b".toList, none, none, none⟩,
       ⟨"c".toList, none, none, none⟩] =
      (Except.ok (), ⟨2, [['b'], ['c']], LastOp.writeLineF, none, none⟩,
       [['a', '\n'], ['b', '\n'], ['c', '\n']]) ∧
    (⟨2, [['b'], ['c']], LastOp.writeLineF, none, none⟩ : Console).buffer =
      (([⟨"a".toList, none, none, none⟩, ⟨"b".toList, none, none, none⟩,
         ⟨"c".toList, none, none, none⟩] : List WriteCall).map
        (fun c => rawOf false true c.text)).drop
        (([⟨"a".toList, none, none, none⟩, ⟨"b".toList, none, none, none⟩,
           ⟨"c".toList, none, none, none⟩] : List WriteCall).length - 2) ∧
    (⟨2, [['b'], ['c']], LastOp.writeLineF, none, none⟩ : Console).buffer.length =
      min ([⟨"a".toList, none, none, none⟩, ⟨"b".toList, none, none, none⟩,
            ⟨"c".toList, none, none, none⟩] : List WriteCall).length 2 := by
  have h := write_line_buffer_invariant false true 2
    [⟨"a".toList, none, none, none⟩, ⟨"b".toList, none, none, none⟩,
     ⟨"c".toList, none, none, none⟩]
    ⟨2, [['b'], ['c']], LastOp.writeLineF, none, none⟩
    [['a', '\n'], ['b', '\n'], ['c', '\n']] rfl
  exact ⟨rfl, h.1, h.2⟩

/-- C3: when the most recent session operation was `print_progress`
(`last_operation = progressF`), the next `write_line` or `show_status` call
first emits the clear-line sequence before any output of its own; and a
successful `print_progress` records itself as the last operation. -/
theorem progress_erased_before_next_line (a f : Bool) (st : Console)
    (text : List Char) (c hl : Option (List Char))
    (att : Option (List (List Char))) (b : Bool) (prompt : Option (List Char))
    (h : st.lastOp = LastOp.progressF) :
    (∃ rest, (writeLine a f st text c hl att b).2.2 =
      clearChunk TEXT_WIDTH :: rest) ∧
    (∃ rest, (showStatus a f st text c hl att prompt b).2.2 =
      clearChunk TEXT_WIDTH :: rest) ∧
    (∀ st₂ i t p now, (Console.printProgress st₂ i t p now).1 = Except.ok () →
      (Console.printProgress st₂ i t p now).2.1.lastOp = LastOp.progressF) := by
  have hpre : autoClearPre st = [clearChunk TEXT_WIDTH] := by
    unfold autoClearPre
    rw [if_pos h]
  refine ⟨?_, ?_, ?_⟩
  · obtain ⟨rest, hr⟩ := writeLine_pre a f st text c hl att b
    rw [hpre] at hr
    exact ⟨rest, hr⟩
  · obtain ⟨rest, hr⟩ := writeLine_pre a f
      { st with lastOp := LastOp.showStatusF }
      ((prompt.getD ">>".toList) ++ ' ' :: text) c hl att b
    refine ⟨(writeLine a f { st with lastOp := LastOp.showStatusF }
      ((prompt.getD ">>".toList) ++ ' ' :: text) c hl att b).2.2, ?_⟩
    show autoClearPre st ++ _ = _
    rw [hpre]
    rfl
  · intro st₂ i t p now hok
    unfold Console.printProgress at hok ⊢
    cases hpp : print_progress i t (ticAfter st₂ i now).tic p 65 now with
    | error e =>
      rw [hpp] at hok
      simp at hok
    | ok chunks =>
      rfl

theorem progress_erased_before_next_line_witness :
    (∃ rest,
      (writeLine false true ⟨0, [], LastOp.progressF, none, none⟩
        "done".toList none none none true).2.2 =
      clearChunk TEXT_WIDTH :: rest) ∧
    (∃ rest,
      (showStatus false true ⟨0, [], LastOp.progressF, none, none⟩
        "done".toList none none none none true).2.2 =
      clearChunk TEXT_WIDTH :: rest) ∧
    (∀ st₂ i t p now, (Console.printProgress st₂ i t p now).1 = Except.ok () →
      (Console.printProgress st₂ i t p now).2.1.lastOp = LastOp.progressF) :=
  progress_erased_before_next_line false true
    ⟨0, [], LastOp.progressF, none, none⟩ "done".toList none none none true
    none rfl

/-- C6: `print_progress` raises the invalid-argument error (`ValueError`)
exactly when `progress` is not supplied and at least one of `index`,
`total` is missing; otherwise the completion fraction is `progress` when
supplied, else `index / total`, and it is clamped to at most 1 before
drawing. -/
theorem print_progress_fraction_spec
    (index total startTime progress : Option ℚ) (barWidth : Nat) (now : ℚ) :
    (print_progress index total startTime progress barWidth now =
        Except.error PyErr.valueError ↔
      progress = none ∧ (index = none ∨ total = none)) ∧
    (∀ frac, progressFraction index total progress = Except.ok frac →
      frac ≤ 1 ∧
      print_progress index total startTime progress barWidth now =
        Except.ok [clearChunk 79,
          progressBarLine frac barWidth (progressTail startTime now frac)]) ∧
    (∀ p, progress = some p →
      progressFraction index total progress = Except.ok (min p 1)) ∧
    (∀ i t, progress = none → index = some i → total = some t → t ≠ 0 →
      progressFraction index total progress =
        Except.ok (min (1 * i / t) 1)) := by
  have hbase : progressFraction index total progress =
      Except.error PyErr.valueError ↔
      progress = none ∧ (index = none ∨ total = none) := by
    cases progress with
    | some p => simp [progressFraction]
    | none =>
      cases index with
      | none => simp [progressFraction]
      | some i =>
        cases total with
        | none => simp [progressFraction]
        | some t =>
          by_cases ht : t = 0 <;> simp [progressFraction, ht]
  refine ⟨?_, ?_, ?_, ?_⟩
  · unfold print_progress
    cases hpf : progressFraction index total progress with
    | error e =>
      rw [hpf] at hbase
      dsimp only
      simp only [Except.error.injEq] at hbase ⊢
      exact hbase
    | ok frac =>
      rw [hpf] at hbase
      dsimp only
      constructor
      · intro hcontra
        exact absurd hcontra (by simp)
      · intro hcond
        exact absurd (hbase.mpr hcond) (by simp)
  · intro frac hf
    refine ⟨?_, by unfold print_progress; rw [hf]⟩
    cases progress with
    | some p =>
      simp only [progressFraction, Except.ok.injEq] at hf
      rw [← hf]
      exact min_le_right _ _
    | none =>
      cases index with
      | none => simp [progressFraction] at hf
      | some i =>
        cases total with
        | none => simp [progressFraction] at hf
        | some t =>
          by_cases ht : t = 0
          · simp [progressFraction, ht] at hf
          · simp only [progressFraction, ht, if_false, Except.ok.injEq] at hf
            rw [← hf]
            exact min_le_right _ _
  · intro p hp
    subst hp
    rfl
  · intro i t hpr hi ht htne
    subst hpr hi ht
    simp [progressFraction, htne]

theorem print_progress_fraction_spec_witness :
    (print_progress none (some 4) none none 65 0 =
        Except.error PyErr.valueError ↔
      (none : Option ℚ) = none ∧
        ((none : Option ℚ) = none ∨ (some (4 : ℚ)) = none)) ∧
    progressFraction (some 3) (some 4) none =
      Except.ok (min (1 * (3 : ℚ) / 4) 1) := by
  refine ⟨(print_progress_fraction_spec none (some 4) none none 65 0).1, ?_⟩
  exact (print_progress_fraction_spec (some 3) (some 4) none none 65 0).2.2.2
    3 4 rfl rfl rfl (by norm_num)

/-- C10: constructing a console with `fancy_text=False` sets the
process-wide flag to false, no subsequent operation can set it back to
true, and with the flag false both renderer entry points produce plain
output for every console for the rest of the process: every successful
`parse` returns equal decorated and raw components, and `colored`
(decorate) returns its text unchanged for every style-argument
combination. -/
theorem init_fancy_false_disables_forever (g : Bool) (k : Nat)
    (ops : List ConsoleOp) :
    List.foldl stepFancy (stepFancy g (ConsoleOp.initConsole k false)) ops =
      false ∧
    (∀ aEnv text lead p,
      parse text lead aEnv
        (List.foldl stepFancy (stepFancy g (ConsoleOp.initConsole k false))
          ops) = Except.ok p →
      p.1 = p.2) ∧
    (∀ (aEnv : Bool) (text : List Char) (c hl : Option (List Char))
        (att : Option (List (List Char))),
      colored text c hl att aEnv
        (List.foldl stepFancy (stepFancy g (ConsoleOp.initConsole k false))
          ops) = Except.ok text) := by
  have h0 : stepFancy g (ConsoleOp.initConsole k false) = false := by
    simp [stepFancy]
  have hfold : ∀ l : List ConsoleOp, ∀ b : Bool, b = false →
      List.foldl stepFancy b l = false := by
    intro l
    induction l with
    | nil => intro b hb; simpa using hb
    | cons op l ih =>
      intro b hb
      subst hb
      rw [List.foldl_cons, stepFancy_false]
      exact ih false rfl
  have hf := hfold ops _ h0
  refine ⟨hf, ?_, ?_⟩
  · intro aEnv text lead p hp
    rw [hf] at hp
    exact parse_plain hp
  · intro aEnv text c hl att
    rw [hf]
    exact colored_plain text c hl att aEnv

theorem init_fancy_false_disables_forever_witness :
    List.foldl stepFancy (stepFancy true (ConsoleOp.initConsole 0 false))
      [ConsoleOp.writeLineOp ['x'], ConsoleOp.initConsole 3 true] = false ∧
    (("hi".toList, "hi".toList) : List Char × List Char).1 =
      (("hi".toList, "hi".toList) : List Char × List Char).2 ∧
    colored "hi".toList (some "red".toList) (some "on_cyan".toList)
      (some ["bold".toList]) false
      (List.foldl stepFancy (stepFancy true (ConsoleOp.initConsole 0 false))
        [ConsoleOp.writeLineOp ['x'], ConsoleOp.initConsole 3 true]) =
      Except.ok "hi".toList :=
  ⟨(init_fancy_false_disables_forever true 0
      [ConsoleOp.writeLineOp ['x'], ConsoleOp.initConsole 3 true]).1,
   (init_fancy_false_disables_forever true 0
      [ConsoleOp.writeLineOp ['x'], ConsoleOp.initConsole 3 true]).2.1
     false "#\x7bhi\x7d\x7bred\x7d".toList '#' ("hi".toList, "hi".toList)
     rfl,
   (init_fancy_false_disables_forever true 0
      [ConsoleOp.writeLineOp ['x'], ConsoleOp.initConsole 3 true]).2.2
     false "hi".toList (some "red".toList) (some "on_cyan".toList)
     (some ["bold".toList])⟩

/-- C1 counterexample: `parse` on a markup segment whose directive token
`purple` is in none of the three enumerations returns normally — token
silently dropped, only a reset appended — instead of raising an
invalid-argument error. -/
theorem parse_unknown_directive_returns_ok :
    parse "#\x7bx\x7d\x7bpurple\x7d".toList '#' false true =
      Except.ok ("x\x1b[0m".toList, "x".toList) ∧
    isDirective "purple".toList = false :=
  ⟨rfl, rfl⟩

/-- C1 amended: a directive token recognized by none of the three
enumerations is silently ignored, not an error — `_render` gives the same
result as on the directive list with every unrecognized token removed. -/
theorem render_ignores_unrecognized_directives (payload : List Char)
    (dirs : List (List Char)) (a f : Bool) :
    _render payload dirs a f =
      _render payload (dirs.filter isDirective) a f := by
  unfold _render classify
  rw [classify_filter dirs (none, none, [])]

/-- C4 counterexample: `split` with a styled splitter (fancy text enabled)
buffers the decorated repetition string, which contains the ANSI escape
character — not an escape-free raw line. -/
theorem split_styled_splitter_buffers_escapes :
    (Console.split false true (mkConsole 1) "#\x7b-\x7d\x7bred\x7d".toList
      (some 10) none none none).2.1.buffer =
      [List.flatten (List.replicate 10 "\x1b[31m-\x1b[0m".toList)] ∧
    '\x1b' ∈ List.flatten (List.replicate 10 "\x1b[31m-\x1b[0m".toList) :=
  ⟨rfl, by decide⟩

/-- C4 amended: the entry a buffered `write_line` call appends is the raw
component of parsing the text passed to `write_line` itself; `split`,
however, hands `write_line` the already-decorated splitter repetitions, so
with a styled splitter the buffered entry keeps the escape codes. -/
theorem write_line_buffers_raw_of_argument (a f : Bool) (st : Console)
    (text : List Char) (c hl : Option (List Char))
    (att : Option (List (List Char))) (ren raw r : List Char)
    (st' : Console) (out : List (List Char))
    (hp : parse text '#' a f = Except.ok (ren, raw))
    (hw : writeLine a f st text c hl att true = (Except.ok r, st', out)) :
    r = raw ∧ st'.buffer = addToBuffer st.bufferSize st.buffer raw := by
  obtain ⟨ren2, styled, hp2, -, hst, -⟩ := writeLine_ok hw
  rw [hp] at hp2
  simp only [Except.ok.injEq, Prod.mk.injEq] at hp2
  obtain ⟨-, hraw⟩ := hp2
  subst hraw
  refine ⟨rfl, ?_⟩
  rw [hst]
  simp

theorem write_line_buffers_raw_of_argument_witness :
    parse "#\x7b-\x7d\x7bred\x7d".toList '#' false true =
      Except.ok ("\x1b[31m-\x1b[0m".toList, "-".toList) ∧
    writeLine false true (mkConsole 1) "#\x7b-\x7d\x7bred\x7d".toList
      none none none true =
      (Except.ok "-".toList, ⟨1, [['-']], LastOp.writeLineF, none, none⟩,
       ["\x1b[31m-\x1b[0m\n".toList]) ∧
    ("-".toList = "-".toList ∧
     (⟨1, [['-']], LastOp.writeLineF, none, none⟩ : Console).buffer =
       addToBuffer (mkConsole 1).bufferSize (mkConsole 1).buffer
         "-".toList) :=
  ⟨rfl, rfl,
   write_line_buffers_raw_of_argument false true (mkConsole 1)
     "#\x7b-\x7d\x7bred\x7d".toList none none none
     "\x1b[31m-\x1b[0m".toList "-".toList "-".toList
     ⟨1, [['-']], LastOp.writeLineF, none, none⟩
     ["\x1b[31m-\x1b[0m\n".toList] rfl rfl⟩

/-- C5 counterexample: a parsed segment with zero directives still receives
a reset suffix (fancy text enabled, environment opt-out unset), so its
decorated output differs from the bare payload. -/
theorem parse_reset_without_directives :
    parse "#\x7bhi\x7d".toList '#' false true =
      Except.ok ("hi\x1b[0m".toList, "hi".toList) ∧
    "hi\x1b[0m".toList ≠ "hi".toList :=
  ⟨rfl, by decide⟩

/-- C5 amended: `colored` with all three style arguments `None` returns the
text unchanged (no escape codes); but an empty attribute list counts as
styling requested, so `colored(text, None, None, [])` appends a reset —
and `_render` always passes a list, so every parse-matched segment gets a
reset when fancy text is enabled and the opt-out is unset, even with zero
directives (with fancy text disabled the segment payload stays
unchanged). -/
theorem colored_unset_versus_empty_attrs :
    (∀ (text : List Char) (a f : Bool),
      colored text none none none a f = Except.ok text) ∧
    (∀ text : List Char,
      colored text none none (some []) false true =
        Except.ok (text ++ RESET)) ∧
    (∀ payload : List Char,
      _render payload [] false true =
        Except.ok (payload ++ RESET, payload)) ∧
    (∀ (payload : List Char) (a : Bool),
      _render payload [] a false = Except.ok (payload, payload)) := by
  refine ⟨fun text a f => ?_, fun text => rfl, fun payload => rfl,
    fun payload a => ?_⟩
  · simp [colored]
  · unfold _render classify colored
    simp

/-- C7 counterexample: for the splitter `#` + two nested brace groups, the
decorated splitter itself still matches the markup pattern, so the second
parse inside `write_line` rewrites it and the emitted line is not the
repeat-count copies of the rendered splitter. -/
theorem split_reparsed_splitter_differs :
    parse "#\x7b#\x7ba\x7d\x7d".toList '#' false true =
      Except.ok ("#\x7ba\x1b[0m\x7d".toList, "#\x7ba\x7d".toList) ∧
    (Console.split false true (mkConsole 0) "#\x7b#\x7ba\x7d\x7d".toList
      (some 10) none none none).2.2 =
      ["a\x1b[0m\x1b[0ma\x1b[0m\x1b[0m\n".toList] ∧
    ["a\x1b[0m\x1b[0ma\x1b[0m\x1b[0m\n".toList] ≠
      [List.flatten (List.replicate
          (10 / ("#\x7ba\x7d".toList).length) "#\x7ba\x1b[0m\x7d".toList)
        ++ ['\n']] :=
  ⟨rfl, rfl, by decide⟩

/-- C7 amended: whenever the repeated rendered splitter contains no markup
match of its own (true of ordinary splitters, styled or plain), `split`
emits — in one `write_line` call — exactly `width / raw_length` (floor)
repetitions of the rendered splitter followed by a newline, the repeat
count computed from the raw (markup-stripped) splitter length. -/
theorem split_emits_raw_width_repetitions (a f : Bool) (st : Console)
    (splitter : List Char) (w : Nat) (ren raw : List Char)
    (hlast : st.lastOp ≠ LastOp.progressF)
    (hw0 : w ≠ 0)
    (hp : parse splitter '#' a f = Except.ok (ren, raw))
    (hraw : raw ≠ [])
    (hnone : findUnits '#'
      (List.flatten (List.replicate (w / raw.length) ren)) = []) :
    (Console.split a f st splitter (some w) none none none).2.2 =
      [List.flatten (List.replicate (w / raw.length) ren) ++ ['\n']] := by
  have hw : splitWidth (some w) = w := by
    unfold splitWidth
    dsimp only
    rw [if_neg hw0]
  have hlen : raw.length ≠ 0 := by
    simpa [List.length_eq_zero] using hraw
  unfold Console.split
  rw [hw, hp]
  dsimp only
  rw [if_neg hlen]
  unfold writeLine
  rw [parse_no_units hnone]
  dsimp only
  have hc : colored (List.flatten (List.replicate (w / raw.length) ren))
      none none none a f =
      Except.ok (List.flatten (List.replicate (w / raw.length) ren)) := by
    simp [colored]
  rw [hc]
  dsimp only
  unfold autoClearPre
  rw [if_neg hlast]
  simp

theorem split_emits_raw_width_repetitions_witness :
    parse "-".toList '#' false true = Except.ok ("-".toList, "-".toList) ∧
    findUnits '#'
      (List.flatten (List.replicate (10 / ("-".toList).length)
        "-".toList)) = [] ∧
    (Console.split false true (mkConsole 0) "-".toList (some 10)
      none none none).2.2 =
      [List.flatten (List.replicate (10 / ("-".toList).length) "-".toList)
        ++ ['\n']] :=
  ⟨rfl, rfl,
   split_emits_raw_width_repetitions false true (mkConsole 0) "-".toList 10
     "-".toList "-".toList (by decide) (by decide) rfl (by decide) rfl⟩
